import Mathlib

/-
  Shallow embedding of the audit-logging engine of the dataset_ai_tarder
  repository:
    - ai_trader/event_listeners.py (_get_session, _serialize_value,
      log_insert, log_update, log_delete, register_audit_listeners)
    - ai_trader/auth_context.py (USER_CONTEXT, current_user_id_context_var,
      auth_context, get_current_user, get_current_user_or_none,
      get_current_user_id)
    - ai_trader/models.py (AuditLog schema, SoftDeleteMixin.soft_delete and
      its cascade over the ownership edges)
  together with a small model of SQLAlchemy's session / transaction
  machinery (event registration, flush-time listener firing, commit and
  rollback of one unit of work) that the listeners run inside.
-/

/-- Python field values as they occur in the audited schema.  A datetime or
date carries the string its isoformat() would return; an enum carries the
payload its .value attribute holds; vother stands for a value of a type not
specially handled by the serializer (for example decimal.Decimal, produced
by Numeric columns). -/
inductive PyVal where
  | vnone
  | vstr (s : String)
  | vint (n : Int)
  | vbool (b : Bool)
  | vdatetime (iso : String)
  | vdate (iso : String)
  | venum (value : PyVal)
  | vother (tag : String)
deriving DecidableEq, Repr

/-- event_listeners._serialize_value: datetime/date become their isoformat()
string, an enum becomes its .value, everything else is returned unchanged. -/
def _serialize_value : PyVal → PyVal
  | .vdatetime iso => .vstr iso
  | .vdate iso => .vstr iso
  | .venum v => v
  | v => v

/-- The serializer as the specification words it (section 4.2): timestamps to
ISO-8601 strings, enums to their scalar code, other recognized scalars pass
through, and an unrecognized type is an error condition to surface.  This
definition follows the spec's words and is only used to compare against
_serialize_value, which is translated from the source. -/
def serialize_spec : PyVal → Except String PyVal
  | .vdatetime iso => .ok (.vstr iso)
  | .vdate iso => .ok (.vstr iso)
  | .venum v => .ok v
  | .vstr s => .ok (.vstr s)
  | .vint n => .ok (.vint n)
  | .vbool b => .ok (.vbool b)
  | .vnone => .ok .vnone
  | .vother _ => .error "unrecognized type"

/-- A Python object: a value together with its object identity (id()).
Distinct objects (different oid) may hold equal values. -/
structure Obj where
  val : PyVal
  oid : Nat
deriving DecidableEq, Repr

/-- Pydantic CurrentUser from ai_trader/auth_context.py. -/
structure CurrentUser where
  user_id : Int
  username : String
  is_superuser : Bool
deriving DecidableEq, Repr

/-- The two context variables of ai_trader/auth_context.py: USER_CONTEXT and
the legacy current_user_id_context_var, both defaulting to None. -/
structure AuthCtx where
  user_context : Option CurrentUser
  current_user_id_var : Option Int
deriving DecidableEq, Repr

/-- Both ContextVars at their declared default None. -/
def initialAuthCtx : AuthCtx := ⟨none, none⟩

/-- Entering the auth_context context manager: with a user it sets
USER_CONTEXT to the user and the legacy var to user.user_id; with None it
explicitly sets both to None. -/
def auth_context_enter (user : Option CurrentUser) (_c : AuthCtx) : AuthCtx :=
  match user with
  | some u => ⟨some u, some u.user_id⟩
  | none => ⟨none, none⟩

/-- Python errors the embedded functions can raise. -/
inductive PyError where
  | lookupError (msg : String)
deriving DecidableEq, Repr

/-- auth_context.get_current_user: reads USER_CONTEXT; raises LookupError if
None.  The returned context is the (unchanged) context after the call. -/
def get_current_user (c : AuthCtx) : Except PyError CurrentUser × AuthCtx :=
  match c.user_context with
  | none =>
      (.error (.lookupError "User not found in context. Ensure auth_context is used."), c)
  | some u => (.ok u, c)

/-- auth_context.get_current_user_or_none: reads USER_CONTEXT, returning None
when unset.  The returned context is the (unchanged) context after the call. -/
def get_current_user_or_none (c : AuthCtx) : Option CurrentUser × AuthCtx :=
  (c.user_context, c)

/-- auth_context.get_current_user_id: prefers USER_CONTEXT (a set CurrentUser
object is truthy), else falls back to the legacy context var. -/
def get_current_user_id (c : AuthCtx) : Option Int :=
  match c.user_context with
  | some u => some u.user_id
  | none => c.current_user_id_var

/-- One mapped column attribute of an entity during a flush, with the state
SQLAlchemy's change tracking holds for it: the committed (loaded) object,
the current object, and whether an assignment to the attribute occurred. -/
structure AttrState where
  key : String
  committed : Obj
  current : Obj
  assigned : Bool
deriving DecidableEq, Repr

/-- SQLAlchemy attribute History as consumed by log_update: the lists of
added and deleted objects. -/
structure History where
  added : List Obj
  deleted : List Obj
deriving DecidableEq, Repr

/-- History.has_changes(): true when added or deleted is non-empty. -/
def History.has_changes (h : History) : Bool :=
  !h.added.isEmpty || !h.deleted.isEmpty

/-- attributes.get_history for a loaded scalar attribute: no history without
an assignment; an assignment of the identical object (the `current is
original` check, object identity, not equality) yields no history; any other
assignment records the current object as added and the committed object as
deleted. -/
def get_history (a : AttrState) : History :=
  if a.assigned = false then ⟨[], []⟩
  else if a.current.oid == a.committed.oid then ⟨[], []⟩
  else ⟨[a.current], [a.committed]⟩

/-- The changes payload computed by log_update: for each mapped column
attribute whose history has_changes(), an entry
key -> (serialize(old), serialize(new)) with
old = history.deleted[0] if present else None and
new = history.added[0] if present else None. -/
def update_changes (fields : List AttrState) : List (String × PyVal × PyVal) :=
  fields.filterMap fun a =>
    let h := get_history a
    if h.has_changes then
      some (a.key,
        _serialize_value ((h.deleted.head?.map Obj.val).getD .vnone),
        _serialize_value ((h.added.head?.map Obj.val).getD .vnone))
    else none

/-- The changes payload computed by log_insert and log_delete: a full
snapshot key -> serialize(current value) over the mapped column attributes. -/
def snapshot_changes (fields : List AttrState) : List (String × PyVal) :=
  fields.map fun a => (a.key, _serialize_value a.current.val)

/-- The mapped model classes relevant to the audit engine, identified by the
Python class registered with the event system. -/
inductive ModelClass where
  | User | Asset | Strategy | Trade | Order | Signal | BacktestResult | AuditLog
deriving DecidableEq, Repr

/-- The __tablename__ of each model class, from ai_trader/models.py. -/
def tablename : ModelClass → String
  | .User => "users"
  | .Asset => "assets"
  | .Strategy => "strategies"
  | .Trade => "trades"
  | .Order => "orders"
  | .Signal => "signals"
  | .BacktestResult => "backtest_results"
  | .AuditLog => "audit_logs"

/-- A mutated entity instance as the listeners see it: its model class, the
value of getattr(target, 'id', None), and its mapped column attributes. -/
structure Entity where
  model : ModelClass
  id : Option Int
  fields : List AttrState
deriving DecidableEq, Repr

/-- The changes column of an AuditLog row: a full snapshot for INSERT and
DELETE, an old/new diff for UPDATE. -/
inductive ChangesJson where
  | snapshot (m : List (String × PyVal))
  | diff (m : List (String × PyVal × PyVal))
deriving DecidableEq, Repr

/-- An AuditLog row as built by the listeners (schema of class AuditLog in
ai_trader/models.py: table_name, record_id, action, changed_by, timestamp,
changes). -/
structure AuditLogRow where
  table_name : String
  record_id : Int
  action : String
  changed_by : Option Int
  timestamp : Nat
  changes : ChangesJson
deriving DecidableEq, Repr

/-- The session-resolution environment a listener invocation runs in:
whether Session.object_session(target) is non-None, whether the connection
argument is available, and whether the fallback instance_state session_id is
set.  During an ordinary flush the owning session and the connection are
both available. -/
structure SessionEnv where
  owningSession : Bool
  hasConnection : Bool
  stateSessionId : Bool
deriving DecidableEq, Repr

/-- The kind of transactional handle _get_session can resolve to.  The
detachedNew kind stands for an independently-committing SessionLocal();
the source only mentions it in commented-out fallback code, and the proofs
below show it is never produced. -/
inductive ResolvedKind where
  | owning
  | bound
  | stateOwning
  | detachedNew
deriving DecidableEq, Repr

/-- event_listeners._get_session: the session owning the target if any, else
a Session bound to the event connection, else the instance-state session,
else None.  (The final SessionLocal() fallback in the source is commented
out and never runs.) -/
def _get_session (env : SessionEnv) : Option ResolvedKind :=
  if env.owningSession then some .owning
  else if env.hasConnection then some .bound
  else if env.stateSessionId then some .stateOwning
  else none

/-- The outcome of one listener invocation: an AuditLog row added to a
resolved session (temp_flushed records whether the listener explicitly
flushed a connection-bound temporary session, as log_delete does), an
error-printing early return, a plain early return because the update diff is
empty, or a propagated exception. -/
inductive AuditOutcome where
  | logged (kind : ResolvedKind) (temp_flushed : Bool) (entry : AuditLogRow)
  | skipped (msg : String)
  | no_changes
  | raised
deriving DecidableEq, Repr

/-- event_listeners.log_insert (after_insert): resolve a session (error-print
and return when none), read getattr(target, 'id', None) (error-print and
return when None), then add an AuditLog row with action INSERT, a full
snapshot of the mapped columns, changed_by from get_current_user_id, and the
current UTC time.  It does not flush the session it adds to. -/
def log_insert (ctx : AuthCtx) (now : Nat) (env : SessionEnv) (target : Entity) :
    AuditOutcome :=
  match _get_session env with
  | none => .skipped "AUDIT_LOG_ERROR: No session for INSERT"
  | some kind =>
    match target.id with
    | none => .skipped "AUDIT_LOG_ERROR: No record_id for INSERT"
    | some rid =>
      .logged kind false
        { table_name := tablename target.model
          record_id := rid
          action := "INSERT"
          changed_by := get_current_user_id ctx
          timestamp := now
          changes := .snapshot (snapshot_changes target.fields) }

/-- event_listeners.log_update (before_update): resolve a session, read the
record id, compute the per-attribute history diff; if the diff is empty
return without creating any AuditLog row, else add an AuditLog row with
action UPDATE.  It does not flush the session it adds to. -/
def log_update (ctx : AuthCtx) (now : Nat) (env : SessionEnv) (target : Entity) :
    AuditOutcome :=
  match _get_session env with
  | none => .skipped "AUDIT_LOG_ERROR: No session for UPDATE"
  | some kind =>
    match target.id with
    | none => .skipped "AUDIT_LOG_ERROR: No record_id for UPDATE"
    | some rid =>
      let changes := update_changes target.fields
      if changes.isEmpty then .no_changes
      else
        .logged kind false
          { table_name := tablename target.model
            record_id := rid
            action := "UPDATE"
            changed_by := get_current_user_id ctx
            timestamp := now
            changes := .diff changes }

/-- The shared tail of log_delete once a session kind is fixed: record-id
check, full snapshot, and the explicit flush of a connection-bound temporary
session (the source's session.bind == connection test holds exactly for the
bound kind). -/
def log_delete_body (ctx : AuthCtx) (now : Nat) (kind : ResolvedKind)
    (target : Entity) : AuditOutcome :=
  match target.id with
  | none => .skipped "AUDIT_LOG_ERROR: No record_id for DELETE"
  | some rid =>
    .logged kind (kind == .bound)
      { table_name := tablename target.model
        record_id := rid
        action := "DELETE"
        changed_by := get_current_user_id ctx
        timestamp := now
        changes := .snapshot (snapshot_changes target.fields) }

/-- event_listeners.log_delete (before_delete): like log_insert but with
action DELETE; when _get_session returns None it retries with a session
bound to the connection if one exists (dead in practice, since _get_session
already used the connection) and otherwise error-prints and returns. -/
def log_delete (ctx : AuthCtx) (now : Nat) (env : SessionEnv) (target : Entity) :
    AuditOutcome :=
  match _get_session env with
  | some kind => log_delete_body ctx now kind target
  | none =>
    if env.hasConnection then log_delete_body ctx now .bound target
    else .skipped "AUDIT_LOG_ERROR: No session or connection for DELETE"

/-- One registration record of SQLAlchemy's event system: a target model
class and an event name. -/
structure Registration where
  model : ModelClass
  event_name : String
deriving DecidableEq, Repr

/-- The audited-model allow-list of register_audit_listeners:
[User, Asset, Strategy, Trade]. -/
def models_to_audit : List ModelClass := [.User, .Asset, .Strategy, .Trade]

/-- event_listeners.register_audit_listeners: for each model on the
allow-list, event.listen the three listeners.  SQLAlchemy's event.listen
appends a listener unconditionally (it does not deduplicate an already
registered (target, event, fn) triple), so each call extends the
registration state. -/
def register_audit_listeners (regs : List Registration) : List Registration :=
  regs ++ models_to_audit.flatMap fun m =>
    [⟨m, "after_insert"⟩, ⟨m, "before_update"⟩, ⟨m, "before_delete"⟩]

/-- The registration state after calling register_audit_listeners k times on
an initially empty event system. -/
def registered_after : Nat → List Registration
  | 0 => []
  | k + 1 => register_audit_listeners (registered_after k)

/-- The three DML operations the interceptor hooks. -/
inductive DmlAction where
  | insert | update | delete
deriving DecidableEq, Repr

/-- The SQLAlchemy event each DML operation fires for the audit listeners. -/
def event_of : DmlAction → String
  | .insert => "after_insert"
  | .update => "before_update"
  | .delete => "before_delete"

/-- The action string stored in the AuditLog row for each DML operation. -/
def action_label : DmlAction → String
  | .insert => "INSERT"
  | .update => "UPDATE"
  | .delete => "DELETE"

/-- The listener function registered for each event. -/
def listener_for : DmlAction → AuthCtx → Nat → SessionEnv → Entity → AuditOutcome
  | .insert => log_insert
  | .update => log_update
  | .delete => log_delete

/-- One business mutation flushed inside a unit of work: the DML operation,
the target entity, and the session-resolution environment its listener
invocations run in. -/
structure Mutation where
  action : DmlAction
  target : Entity
  env : SessionEnv
deriving DecidableEq, Repr

/-- How many registered listeners fire for a given model class and event. -/
def fire_count (regs : List Registration) (m : ModelClass) (ev : String) : Nat :=
  (regs.filter fun r => r.model == m && r.event_name == ev).length

/-- The listener outcomes produced while flushing one mutation: the listener
registered for the mutation's event runs once per matching registration. -/
def flush_outcomes (regs : List Registration) (ctx : AuthCtx) (now : Nat)
    (mu : Mutation) : List AuditOutcome :=
  List.replicate (fire_count regs mu.target.model (event_of mu.action))
    (listener_for mu.action ctx now mu.env mu.target)

/-- Whether a listener outcome puts an AuditLog row into the transaction of
the flushing unit of work.  Rows added to the owning session (or the
instance-state session, which is the same session object) are flushed with
the unit of work; rows added to a temporary Session bound to the event
connection reach the transaction only if that temporary session was
explicitly flushed (log_delete does, log_insert and log_update do not); a
detached independently-committing session would not be part of the
transaction at all. -/
def enlisted_same_tx : AuditOutcome → Option AuditLogRow
  | .logged .owning _ e => some e
  | .logged .stateOwning _ e => some e
  | .logged .bound flushed e => if flushed then some e else none
  | .logged .detachedNew _ _ => none
  | .skipped _ => none
  | .no_changes => none
  | .raised => none

/-- Whether a listener outcome wrote an AuditLog row through a detached,
independently-committing session — such a row would survive a rollback of
the unit of work.  The theorems below show the listeners never produce one. -/
def independent_commit : AuditOutcome → Option AuditLogRow
  | .logged .detachedNew _ e => some e
  | _ => none

/-- The durable store visible to later readers: committed business effects
as (table_name, record_id, action) triples, and committed AuditLog rows. -/
structure Store where
  business : List (String × Int × String)
  audit : List AuditLogRow
deriving DecidableEq, Repr

/-- The committed business effect of one mutation. -/
def business_effect (mu : Mutation) : List (String × Int × String) :=
  match mu.target.id with
  | some rid => [(tablename mu.target.model, rid, action_label mu.action)]
  | none => []

/-- Committing the unit of work: the flushed business mutations become
durable together with every AuditLog row enlisted into the same
transaction. -/
def commit_uow (init : Store) (regs : List Registration) (ctx : AuthCtx)
    (now : Nat) (muts : List Mutation) : Store :=
  { business := init.business ++ muts.flatMap business_effect
    audit := init.audit ++ muts.flatMap fun mu =>
      (flush_outcomes regs ctx now mu).filterMap enlisted_same_tx }

/-- Rolling the unit of work back: every business effect and every AuditLog
row enlisted in the transaction is discarded; only rows written through a
detached independently-committing session (never produced, as proved below)
would survive. -/
def rollback_uow (init : Store) (regs : List Registration) (ctx : AuthCtx)
    (now : Nat) (muts : List Mutation) : Store :=
  { business := init.business
    audit := init.audit ++ muts.flatMap fun mu =>
      (flush_outcomes regs ctx now mu).filterMap independent_commit }

/-- The SoftDeleteMixin columns: is_deleted (default false) and deleted_at
(nullable timestamp). -/
structure SDState where
  is_deleted : Bool
  deleted_at : Option Nat
deriving DecidableEq, Repr

/-- The assignment pair soft_delete performs: is_deleted = True,
deleted_at = datetime.now(timezone.utc). -/
def mark_deleted (now : Nat) : SDState := ⟨true, some now⟩

/-- The soft_delete of ai_trader/models/base.py's SoftDeleteMixin, which has
no already-deleted guard and no cascade: it unconditionally re-stamps
is_deleted and deleted_at. -/
def base_soft_delete (now : Nat) (_sd : SDState) : SDState := mark_deleted now

/-- A users row (columns relevant to soft delete). -/
structure UserRow where
  id : Nat
  sd : SDState
deriving DecidableEq, Repr

/-- A strategies row: strategies belong to a user. -/
structure StrategyRow where
  id : Nat
  user_id : Nat
  sd : SDState
deriving DecidableEq, Repr

/-- An orders row: user_id and strategy_id are nullable foreign keys. -/
structure OrderRow where
  id : Nat
  user_id : Option Nat
  strategy_id : Option Nat
  sd : SDState
deriving DecidableEq, Repr

/-- A trades row: order_id is a nullable foreign key. -/
structure TradeRow where
  id : Nat
  user_id : Nat
  order_id : Option Nat
  sd : SDState
deriving DecidableEq, Repr

/-- A signals row. -/
structure SignalRow where
  id : Nat
  strategy_id : Nat
  sd : SDState
deriving DecidableEq, Repr

/-- A backtest_results row. -/
structure BacktestResultRow where
  id : Nat
  strategy_id : Nat
  sd : SDState
deriving DecidableEq, Repr

/-- A user_behavior_logs row. -/
structure BehaviorLogRow where
  id : Nat
  user_id : Nat
  sd : SDState
deriving DecidableEq, Repr

/-- A trade_analytics row: strategy_id is nullable. -/
structure AnalyticsRow where
  id : Nat
  user_id : Nat
  strategy_id : Option Nat
  sd : SDState
deriving DecidableEq, Repr

/-- The soft-delete-capable tables of ai_trader/models.py, as the state the
cascading soft_delete operates on. -/
structure OrmDB where
  users : List UserRow
  strategies : List StrategyRow
  orders : List OrderRow
  trades : List TradeRow
  signals : List SignalRow
  backtest_results : List BacktestResultRow
  behavior_logs : List BehaviorLogRow
  trade_analytics : List AnalyticsRow
deriving DecidableEq, Repr

/-
  SoftDeleteMixin.soft_delete of ai_trader/models.py dispatches its cascade
  on isinstance(self, ...); the embedding splits that dispatch into one
  function per model class.  Each function follows the method body: return
  early when self.is_deleted, set is_deleted/deleted_at, then for each child
  relationship call the child's soft_delete, whose own early return
  subsumes the caller-side `if not child.is_deleted` guard.  Leaf classes
  (Trade, Signal, BacktestResult, UserBehaviorLog, TradeAnalytics) match no
  isinstance branch, so their soft_delete only marks the row itself; the
  guarded mark is inlined where a parent iterates over them.  Within one
  cascade every nested call stamps its own datetime.now(); the claims only
  inspect nullability of deleted_at and the early return, so the embedding
  passes one clock value `now` through the cascade.
-/

/-- soft_delete on a Trade (no isinstance branch matches: no cascade). -/
def soft_delete_trade (now : Nat) (tid : Nat) (db : OrmDB) : OrmDB :=
  match db.trades.find? (fun t => t.id == tid) with
  | none => db
  | some t =>
    if t.sd.is_deleted then db
    else
      { db with trades := db.trades.map fun (r : TradeRow) =>
          if r.id == tid then { r with sd := mark_deleted now } else r }

/-- soft_delete on an Order: mark the order, then soft-delete its trades
(the rows of the self.trades relationship). -/
def soft_delete_order (now : Nat) (oid : Nat) (db : OrmDB) : OrmDB :=
  match db.orders.find? (fun o => o.id == oid) with
  | none => db
  | some o =>
    if o.sd.is_deleted then db
    else
      let db1 := { db with orders := db.orders.map fun (r : OrderRow) =>
          if r.id == oid then { r with sd := mark_deleted now } else r }
      (db1.trades.filter fun t => t.order_id == some oid).foldl
        (fun acc t => soft_delete_trade now t.id acc) db1

/-- soft_delete on a Strategy: mark the strategy, soft-delete its orders
(which cascade to their trades), then its signals, backtest_results and
trade_analytics. -/
def soft_delete_strategy (now : Nat) (sid : Nat) (db : OrmDB) : OrmDB :=
  match db.strategies.find? (fun s => s.id == sid) with
  | none => db
  | some s =>
    if s.sd.is_deleted then db
    else
      let db1 := { db with strategies := db.strategies.map fun (r : StrategyRow) =>
          if r.id == sid then { r with sd := mark_deleted now } else r }
      let db2 := (db1.orders.filter fun o => o.strategy_id == some sid).foldl
        (fun acc o => soft_delete_order now o.id acc) db1
      let db3 := { db2 with signals := db2.signals.map fun (g : SignalRow) =>
          if g.strategy_id == sid && !g.sd.is_deleted
          then { g with sd := mark_deleted now } else g }
      let db4 := { db3 with backtest_results := db3.backtest_results.map fun (b : BacktestResultRow) =>
          if b.strategy_id == sid && !b.sd.is_deleted
          then { b with sd := mark_deleted now } else b }
      { db4 with trade_analytics := db4.trade_analytics.map fun (a : AnalyticsRow) =>
          if a.strategy_id == some sid && !a.sd.is_deleted
          then { a with sd := mark_deleted now } else a }

/-- soft_delete on a User: mark the user, soft-delete its strategies, then
its orders, then its user_behavior_logs and trade_analytics.  (The User
model has no direct trades relationship, so the hasattr(self, "trades")
branch of the source does not run.) -/
def soft_delete_user (now : Nat) (uid : Nat) (db : OrmDB) : OrmDB :=
  match db.users.find? (fun u => u.id == uid) with
  | none => db
  | some u =>
    if u.sd.is_deleted then db
    else
      let db1 := { db with users := db.users.map fun (r : UserRow) =>
          if r.id == uid then { r with sd := mark_deleted now } else r }
      let db2 := (db1.strategies.filter fun s => s.user_id == uid).foldl
        (fun acc s => soft_delete_strategy now s.id acc) db1
      let db3 := (db2.orders.filter fun o => o.user_id == some uid).foldl
        (fun acc o => soft_delete_order now o.id acc) db2
      let db4 := { db3 with behavior_logs := db3.behavior_logs.map fun (b : BehaviorLogRow) =>
          if b.user_id == uid && !b.sd.is_deleted
          then { b with sd := mark_deleted now } else b }
      { db4 with trade_analytics := db4.trade_analytics.map fun (a : AnalyticsRow) =>
          if a.user_id == uid && !a.sd.is_deleted
          then { a with sd := mark_deleted now } else a }

/-- A session environment of an ordinary flush: the owning session and the
event connection are both available. -/
def owning_env : SessionEnv := ⟨true, true, false⟩

/-- The failing session environment of claim C5: no owning session, no
connection, no instance-state session. -/
def no_session_env : SessionEnv := ⟨false, false, false⟩

/-- A username attribute assigned a new string object that is equal in value
to the committed one but is a distinct object (different oid): SQLAlchemy
history reports a change for it. -/
def c2_field : AttrState := ⟨"username", ⟨.vstr "u1", 1⟩, ⟨.vstr "u1", 2⟩, true⟩

/-- A users entity flushing an UPDATE whose only assigned attribute received
an equal-valued but non-identical object. -/
def c2_entity : Entity := ⟨.User, some 7, [c2_field]⟩

/-- A freshly inserted users entity with primary key 5. -/
def c3_entity : Entity := ⟨.User, some 5, [⟨"username", ⟨.vstr "bob", 1⟩, ⟨.vstr "bob", 1⟩, false⟩]⟩

/-- The INSERT audit row the listeners build for c3_entity at time 0 with no
principal in context. -/
def c3_entry : AuditLogRow :=
  ⟨"users", 5, "INSERT", none, 0, .snapshot [("username", .vstr "bob")]⟩

/-- A users entity with primary key 3 whose listener fires outside any
session/connection context. -/
def c5_entity : Entity := ⟨.User, some 3, [⟨"username", ⟨.vstr "eve", 2⟩, ⟨.vstr "eve", 2⟩, false⟩]⟩

/-- An empty durable store. -/
def emptyStore : Store := ⟨[], []⟩

/-- A session environment with an owning session resolves to the owning
session. -/
theorem get_session_owning (env : SessionEnv) (h : env.owningSession = true) :
    _get_session env = some .owning := by
  simp [_get_session, h]

/-- With no owning session, no connection and no instance-state session,
_get_session resolves nothing. -/
theorem get_session_none (env : SessionEnv) (h1 : env.owningSession = false)
    (h2 : env.hasConnection = false) (h3 : env.stateSessionId = false) :
    _get_session env = none := by
  simp [_get_session, h1, h2, h3]

/-- _get_session never fabricates a detached, independently-committing
session. -/
theorem get_session_not_detached (env : SessionEnv) :
    _get_session env ≠ some .detachedNew := by
  unfold _get_session
  by_cases h1 : env.owningSession = true <;> by_cases h2 : env.hasConnection = true <;>
    by_cases h3 : env.stateSessionId = true <;> simp [h1, h2, h3]

/-- No listener invocation ever writes through a detached
independently-committing session. -/
theorem listener_not_detached (a : DmlAction) (ctx : AuthCtx) (now : Nat)
    (env : SessionEnv) (e : Entity) :
    independent_commit (listener_for a ctx now env e) = none := by
  have hnd := get_session_not_detached env
  cases a with
  | insert =>
    show independent_commit (log_insert ctx now env e) = none
    cases hs : _get_session env with
    | none => simp [log_insert, hs, independent_commit]
    | some k =>
      cases hid : e.id with
      | none => simp [log_insert, hs, hid, independent_commit]
      | some rid =>
        cases k with
        | detachedNew => exact absurd hs hnd
        | owning => simp [log_insert, hs, hid, independent_commit]
        | bound => simp [log_insert, hs, hid, independent_commit]
        | stateOwning => simp [log_insert, hs, hid, independent_commit]
  | update =>
    show independent_commit (log_update ctx now env e) = none
    cases hs : _get_session env with
    | none => simp [log_update, hs, independent_commit]
    | some k =>
      cases hid : e.id with
      | none => simp [log_update, hs, hid, independent_commit]
      | some rid =>
        by_cases hch : (update_changes e.fields).isEmpty = true
        · simp [log_update, hs, hid, hch, independent_commit]
        · cases k with
          | detachedNew => exact absurd hs hnd
          | owning => simp [log_update, hs, hid, hch, independent_commit]
          | bound => simp [log_update, hs, hid, hch, independent_commit]
          | stateOwning => simp [log_update, hs, hid, hch, independent_commit]
  | delete =>
    show independent_commit (log_delete ctx now env e) = none
    cases hs : _get_session env with
    | some k =>
      cases hid : e.id with
      | none => simp [log_delete, log_delete_body, hs, hid, independent_commit]
      | some rid =>
        cases k with
        | detachedNew => exact absurd hs hnd
        | owning => simp [log_delete, log_delete_body, hs, hid, independent_commit]
        | bound => simp [log_delete, log_delete_body, hs, hid, independent_commit]
        | stateOwning => simp [log_delete, log_delete_body, hs, hid, independent_commit]
    | none =>
      by_cases hc : env.hasConnection = true
      · cases hid : e.id with
        | none => simp [log_delete, log_delete_body, hs, hid, hc, independent_commit]
        | some rid => simp [log_delete, log_delete_body, hs, hid, hc, independent_commit]
      · simp [log_delete, hs, hc, independent_commit]

/-- Rollback of a unit of work restores the initial store exactly: the
listeners never write through a detached session, so nothing survives the
rollback. -/
theorem rollback_uow_eq_init (init : Store) (regs : List Registration)
    (ctx : AuthCtx) (now : Nat) (muts : List Mutation) :
    rollback_uow init regs ctx now muts = init := by
  unfold rollback_uow
  have h : (muts.flatMap fun mu =>
      (flush_outcomes regs ctx now mu).filterMap independent_commit) = [] := by
    rw [List.flatMap_eq_nil_iff]
    intro mu _
    rw [List.filterMap_eq_nil_iff]
    intro o ho
    unfold flush_outcomes at ho
    have he := List.eq_of_mem_replicate ho
    subst he
    exact listener_not_detached mu.action ctx now mu.env mu.target
  rw [h]
  cases init
  simp

/-- During an owning-session flush with a populated record id, the listener
for each DML action adds to the owning session a row carrying the matching
record id, action label, table name and the principal read from context (on
UPDATE, provided the diff is non-empty). -/
theorem listener_owning_logged (a : DmlAction) (ctx : AuthCtx) (now : Nat)
    (env : SessionEnv) (e : Entity) (rid : Int)
    (ho : env.owningSession = true) (hid : e.id = some rid)
    (hu : a = .update → (update_changes e.fields).isEmpty = false) :
    ∃ entry, listener_for a ctx now env e = .logged .owning false entry ∧
      entry.record_id = rid ∧ entry.action = action_label a ∧
      entry.table_name = tablename e.model ∧
      entry.changed_by = get_current_user_id ctx := by
  have hs := get_session_owning env ho
  cases a with
  | insert =>
    refine ⟨{ table_name := tablename e.model, record_id := rid, action := "INSERT",
              changed_by := get_current_user_id ctx, timestamp := now,
              changes := .snapshot (snapshot_changes e.fields) }, ?_, rfl, rfl, rfl, rfl⟩
    show log_insert ctx now env e = _
    simp [log_insert, hs, hid]
  | update =>
    refine ⟨{ table_name := tablename e.model, record_id := rid, action := "UPDATE",
              changed_by := get_current_user_id ctx, timestamp := now,
              changes := .diff (update_changes e.fields) }, ?_, rfl, rfl, rfl, rfl⟩
    show log_update ctx now env e = _
    simp [log_update, hs, hid, hu rfl]
  | delete =>
    refine ⟨{ table_name := tablename e.model, record_id := rid, action := "DELETE",
              changed_by := get_current_user_id ctx, timestamp := now,
              changes := .snapshot (snapshot_changes e.fields) }, ?_, rfl, rfl, rfl, rfl⟩
    show log_delete ctx now env e = _
    simp [log_delete, log_delete_body, hs, hid]

/-- After one registration pass each audited model has exactly one listener
per event. -/
theorem fire_count_once (m : ModelClass) (hm : m ∈ models_to_audit)
    (a : DmlAction) :
    fire_count (register_audit_listeners []) m (event_of a) = 1 := by
  have h4 : m = .User ∨ m = .Asset ∨ m = .Strategy ∨ m = .Trade := by
    simpa [models_to_audit] using hm
  rcases h4 with rfl | rfl | rfl | rfl <;> cases a <;> decide

/-- After two registration passes each audited model has two listeners per
event: the second call re-registers every listener. -/
theorem fire_count_twice (m : ModelClass) (hm : m ∈ models_to_audit)
    (a : DmlAction) :
    fire_count (register_audit_listeners (register_audit_listeners [])) m
      (event_of a) = 2 := by
  have h4 : m = .User ∨ m = .Asset ∨ m = .Strategy ∨ m = .Trade := by
    simpa [models_to_audit] using hm
  rcases h4 with rfl | rfl | rfl | rfl <;> cases a <;> decide

/-- Every registration ever made by register_audit_listeners points at an
allow-listed model. -/
theorem registered_after_models (k : Nat) :
    ∀ r ∈ registered_after k, r.model ∈ models_to_audit := by
  induction k with
  | zero => intro r hr; simp [registered_after] at hr
  | succ k ih =>
    intro r hr
    unfold registered_after register_audit_listeners at hr
    rcases List.mem_append.mp hr with h | h
    · exact ih r h
    · rcases List.mem_flatMap.mp h with ⟨mm, hmm, hr2⟩
      simp at hr2
      rcases hr2 with rfl | rfl | rfl <;> exact hmm

/-- No listener ever fires for a model off the allow-list, however many
times registration ran. -/
theorem fire_count_zero (k : Nat) (m : ModelClass) (hm : m ∉ models_to_audit)
    (ev : String) :
    fire_count (registered_after k) m ev = 0 := by
  unfold fire_count
  rw [List.length_eq_zero, List.filter_eq_nil_iff]
  intro r hr
  have hin := registered_after_models k r hr
  intro hcontra
  simp only [Bool.and_eq_true, beq_iff_eq] at hcontra
  exact hm (hcontra.1 ▸ hin)

/-- C6 counterexample: for a value of an unrecognized type (a Decimal, as
produced by the Numeric columns of Trade), _serialize_value silently passes
the value through unchanged, whereas the claim requires an error to be
surfaced (serialize_spec, written from the spec's words, errors here).  The
claim as stated is therefore false at this input. -/
theorem c6_unrecognized_passthrough :
    _serialize_value (.vother "Decimal") = .vother "Decimal" ∧
    serialize_spec (.vother "Decimal") = .error "unrecognized type" :=
  ⟨rfl, rfl⟩

/-- C6 amended: the audit value serializer maps every datetime/date value to
its ISO-8601 string and every enum value to its underlying scalar code, and
passes every other value through unchanged — including values of types it
does not recognize; it never raises an error. -/
theorem c6_serializer_passthrough :
    (∀ iso, _serialize_value (.vdatetime iso) = .vstr iso) ∧
    (∀ iso, _serialize_value (.vdate iso) = .vstr iso) ∧
    (∀ v, _serialize_value (.venum v) = v) ∧
    (∀ s, _serialize_value (.vstr s) = .vstr s) ∧
    (∀ n, _serialize_value (.vint n) = .vint n) ∧
    (∀ b, _serialize_value (.vbool b) = .vbool b) ∧
    (_serialize_value .vnone = .vnone) ∧
    (∀ tag, _serialize_value (.vother tag) = .vother tag) :=
  ⟨fun _ => rfl, fun _ => rfl, fun _ => rfl, fun _ => rfl, fun _ => rfl,
   fun _ => rfl, rfl, fun _ => rfl⟩

/-- C9: when no user is set in the context, get_current_user raises
LookupError while get_current_user_or_none returns None; when a user is set
both return that same user; and neither call modifies the context. -/
theorem c9_current_user_contract :
    ∀ c : AuthCtx,
      (c.user_context = none →
        (get_current_user c).1 =
          .error (.lookupError
            "User not found in context. Ensure auth_context is used.") ∧
        (get_current_user_or_none c).1 = none) ∧
      (∀ u, c.user_context = some u →
        (get_current_user c).1 = .ok u ∧
        (get_current_user_or_none c).1 = some u) ∧
      (get_current_user c).2 = c ∧
      (get_current_user_or_none c).2 = c := by
  intro c
  refine ⟨?_, ?_, ?_, rfl⟩
  · intro h
    simp [get_current_user, get_current_user_or_none, h]
  · intro u hu
    simp [get_current_user, get_current_user_or_none, hu]
  · cases hc : c.user_context <;> simp [get_current_user, hc]

/-- C9 witness: at the default context get_current_user raises LookupError
and get_current_user_or_none returns None; after entering auth_context with
a user both calls return that user. -/
theorem c9_current_user_contract_witness :
    (get_current_user initialAuthCtx).1 =
      .error (.lookupError
        "User not found in context. Ensure auth_context is used.") ∧
    (get_current_user_or_none initialAuthCtx).1 = none ∧
    (get_current_user
      (auth_context_enter (some ⟨7, "alice", false⟩) initialAuthCtx)).1 =
      .ok ⟨7, "alice", false⟩ ∧
    (get_current_user_or_none
      (auth_context_enter (some ⟨7, "alice", false⟩) initialAuthCtx)).1 =
      some ⟨7, "alice", false⟩ := by
  have h1 := (c9_current_user_contract initialAuthCtx).1 rfl
  have h2 := (c9_current_user_contract
    (auth_context_enter (some ⟨7, "alice", false⟩) initialAuthCtx)).2.1
    ⟨7, "alice", false⟩ rfl
  exact ⟨h1.1, h1.2, h2.1, h2.2⟩

/-- C4: for every audited mutation flushed in an owning session with a
populated record id, if a principal P is in context (entered through
auth_context) the produced AuditLog row has changed_by = P; with nothing in
context every produced row has changed_by = None, and in particular
log_insert still succeeds (the row is created and enlisted) — a missing
principal is not an error. -/
theorem c4_attribution :
    ∀ (cu : CurrentUser) (c0 : AuthCtx) (now : Nat) (env : SessionEnv)
      (e : Entity) (rid : Int),
      env.owningSession = true → e.id = some rid →
      (get_current_user_id (auth_context_enter (some cu) c0) =
        some cu.user_id) ∧
      (get_current_user_id initialAuthCtx = none) ∧
      (∀ a kind fl entry,
        listener_for a (auth_context_enter (some cu) c0) now env e =
          .logged kind fl entry → entry.changed_by = some cu.user_id) ∧
      (∀ a kind fl entry,
        listener_for a initialAuthCtx now env e = .logged kind fl entry →
          entry.changed_by = none) ∧
      (log_insert initialAuthCtx now env e = .logged .owning false
        { table_name := tablename e.model, record_id := rid,
          action := "INSERT", changed_by := none, timestamp := now,
          changes := .snapshot (snapshot_changes e.fields) }) := by
  intro cu c0 now env e rid ho hid
  have hs := get_session_owning env ho
  have hctxP : get_current_user_id (auth_context_enter (some cu) c0) =
      some cu.user_id := rfl
  have hchanged : ∀ (ctx : AuthCtx) a kind fl entry,
      listener_for a ctx now env e = .logged kind fl entry →
      entry.changed_by = get_current_user_id ctx := by
    intro ctx a kind fl entry hlog
    cases a with
    | insert =>
      rw [show listener_for .insert ctx now env e = log_insert ctx now env e
        from rfl] at hlog
      unfold log_insert at hlog
      simp only [hs, hid] at hlog
      cases hlog
      rfl
    | update =>
      rw [show listener_for .update ctx now env e = log_update ctx now env e
        from rfl] at hlog
      unfold log_update at hlog
      simp only [hs, hid] at hlog
      by_cases hch : (update_changes e.fields).isEmpty = true
      · rw [if_pos hch] at hlog
        exact absurd hlog (by simp)
      · rw [if_neg hch] at hlog
        cases hlog
        rfl
    | delete =>
      rw [show listener_for .delete ctx now env e = log_delete ctx now env e
        from rfl] at hlog
      unfold log_delete log_delete_body at hlog
      simp only [hs, hid] at hlog
      cases hlog
      rfl
  refine ⟨hctxP, rfl, ?_, ?_, ?_⟩
  · intro a kind fl entry hlog
    rw [hchanged _ a kind fl entry hlog, hctxP]
  · intro a kind fl entry hlog
    exact hchanged _ a kind fl entry hlog
  · show log_insert initialAuthCtx now env e = _
    simp only [log_insert, hs, hid]
    rfl

/-- C4 witness: with user 7 in context an INSERT row is attributed to 7;
with the default context the row is created with changed_by = None. -/
theorem c4_attribution_witness :
    (⟨true, true, false⟩ : SessionEnv).owningSession = true ∧
    (⟨.User, some 3, []⟩ : Entity).id = some 3 ∧
    (∀ a kind fl entry,
      listener_for a (auth_context_enter (some ⟨7, "alice", false⟩)
          initialAuthCtx) 0 ⟨true, true, false⟩ ⟨.User, some 3, []⟩ =
        .logged kind fl entry → entry.changed_by = some 7) ∧
    (log_insert initialAuthCtx 0 ⟨true, true, false⟩ ⟨.User, some 3, []⟩ =
      .logged .owning false
        { table_name := "users", record_id := 3, action := "INSERT",
          changed_by := none, timestamp := 0,
          changes := .snapshot [] }) := by
  have h := c4_attribution ⟨7, "alice", false⟩ initialAuthCtx 0
    ⟨true, true, false⟩ ⟨.User, some 3, []⟩ 3 rfl rfl
  exact ⟨rfl, rfl, h.2.2.1, h.2.2.2.2⟩

/-- SQLAlchemy history reports a change for an attribute exactly when it was
assigned an object that is not the identical object — equality of values
plays no role. -/
theorem get_history_has_changes (a : AttrState) :
    (get_history a).has_changes = true ↔
      a.assigned = true ∧ a.current.oid ≠ a.committed.oid := by
  unfold get_history History.has_changes
  cases ha : a.assigned <;> by_cases h2 : a.current.oid = a.committed.oid <;>
    simp [ha, h2]

/-- The value of the history on a changed attribute: the current object was
added, the committed object deleted. -/
theorem get_history_changed (a : AttrState) (hass : a.assigned = true)
    (hoid : a.current.oid ≠ a.committed.oid) :
    get_history a = ⟨[a.current], [a.committed]⟩ := by
  unfold get_history
  simp [hass, hoid]

/-- Membership in the UPDATE diff: a key/old/new triple is emitted exactly
for the attributes whose history has changes, with old and new the
serialize of the committed and current values. -/
theorem mem_update_changes (fields : List AttrState) (k : String)
    (ov nv : PyVal) :
    (k, ov, nv) ∈ update_changes fields ↔
      ∃ a ∈ fields, a.key = k ∧ a.assigned = true ∧
        a.current.oid ≠ a.committed.oid ∧
        ov = _serialize_value a.committed.val ∧
        nv = _serialize_value a.current.val := by
  unfold update_changes
  rw [List.mem_filterMap]
  constructor
  · rintro ⟨a, ha, hfa⟩
    simp only at hfa
    by_cases hch : (get_history a).has_changes = true
    · obtain ⟨hass, hoid⟩ := (get_history_has_changes a).mp hch
      rw [get_history_changed a hass hoid] at hfa
      simp [History.has_changes] at hfa
      exact ⟨a, ha, hfa.1, hass, hoid, hfa.2.1.symm, hfa.2.2.symm⟩
    · rw [if_neg hch] at hfa
      simp at hfa
  · rintro ⟨a, ha, hk, hass, hoid, hov, hnv⟩
    refine ⟨a, ha, ?_⟩
    simp only
    rw [get_history_changed a hass hoid]
    have hch : (History.has_changes ⟨[a.current], [a.committed]⟩) = true := by
      simp [History.has_changes]
    rw [if_pos hch]
    simp [hk, hov, hnv]

/-- C2 counterexample: updating the username attribute with an equal-valued
but non-identical string object (same value "u1", different object id), the
old and new values do not differ by value, yet log_update creates an
AuditLogEntry whose changes mapping contains that field with old = new —
contradicting both halves of the claim (only value-differing fields are
emitted; no AuditLogEntry when no value differs). -/
theorem c2_identity_diff_counterexample :
    c2_field.committed.val = c2_field.current.val ∧
    log_update initialAuthCtx 0 owning_env c2_entity =
      .logged .owning false
        { table_name := "users", record_id := 7, action := "UPDATE",
          changed_by := none, timestamp := 0,
          changes := .diff [("username", .vstr "u1", .vstr "u1")] } :=
  ⟨rfl, rfl⟩

/-- C2 amended: the changes mapping of an UPDATE contains exactly the fields
whose change-tracking history reports a change — an assignment of a
non-identical object, regardless of value equality — each mapped to the
serialized (old, new) pair; an update in which no field's history has
changes produces no AuditLogEntry, and one in which some field's history has
changes produces exactly the history-based diff entry. -/
theorem c2_update_diff_identity :
    ∀ (ctx : AuthCtx) (now : Nat) (env : SessionEnv) (e : Entity) (rid : Int),
      env.owningSession = true → e.id = some rid →
      ((∀ a ∈ e.fields, (get_history a).has_changes = false) →
        log_update ctx now env e = .no_changes) ∧
      ((∃ a ∈ e.fields, (get_history a).has_changes = true) →
        log_update ctx now env e = .logged .owning false
          { table_name := tablename e.model, record_id := rid,
            action := "UPDATE", changed_by := get_current_user_id ctx,
            timestamp := now, changes := .diff (update_changes e.fields) }) ∧
      (∀ k ov nv, ((k, ov, nv) ∈ update_changes e.fields ↔
        ∃ a ∈ e.fields, a.key = k ∧ a.assigned = true ∧
          a.current.oid ≠ a.committed.oid ∧
          ov = _serialize_value a.committed.val ∧
          nv = _serialize_value a.current.val)) := by
  intro ctx now env e rid ho hid
  have hs := get_session_owning env ho
  refine ⟨?_, ?_, fun k ov nv => mem_update_changes e.fields k ov nv⟩
  · intro hall
    have hnil : update_changes e.fields = [] := by
      unfold update_changes
      rw [List.filterMap_eq_nil_iff]
      intro a ha
      simp [hall a ha]
    simp [log_update, hs, hid, hnil]
  · rintro ⟨a, ha, hch⟩
    have hne : (update_changes e.fields).isEmpty = false := by
      rcases (get_history_has_changes a).mp hch with ⟨hass, hoid⟩
      have hmem : (a.key, _serialize_value a.committed.val,
          _serialize_value a.current.val) ∈ update_changes e.fields :=
        (mem_update_changes e.fields a.key _ _).mpr
          ⟨a, ha, rfl, hass, hoid, rfl, rfl⟩
      cases hcase : update_changes e.fields with
      | nil => rw [hcase] at hmem; simp at hmem
      | cons x xs => rfl
    simp [log_update, hs, hid, hne]

/-- C2 amended witness: the concrete identity-changed username field has
history changes, and log_update on the concrete entity produces exactly the
history-based diff entry. -/
theorem c2_update_diff_identity_witness :
    (get_history c2_field).has_changes = true ∧
    log_update initialAuthCtx 0 owning_env c2_entity =
      .logged .owning false
        { table_name := "users", record_id := 7, action := "UPDATE",
          changed_by := none, timestamp := 0,
          changes := .diff (update_changes c2_entity.fields) } := by
  have h := c2_update_diff_identity initialAuthCtx 0 owning_env c2_entity 7
    rfl rfl
  refine ⟨by decide, ?_⟩
  exact h.2.1 ⟨c2_field, by simp [c2_entity], by decide⟩

/-- C5 counterexample: when the entity has no owning session and no
connection is available, log_insert does not propagate any failure — it
prints and returns (outcome skipped, not raised) — and committing the unit
of work persists the business mutation with no audit row: the mutation
commits un-audited, contradicting the claim that the failure propagates and
the transaction rolls back. -/
theorem c5_no_propagation_counterexample :
    log_insert initialAuthCtx 0 no_session_env c5_entity =
      .skipped "AUDIT_LOG_ERROR: No session for INSERT" ∧
    log_insert initialAuthCtx 0 no_session_env c5_entity ≠ .raised ∧
    (commit_uow emptyStore (register_audit_listeners []) initialAuthCtx 0
      [⟨.insert, c5_entity, no_session_env⟩]).business =
      [("users", 3, "INSERT")] ∧
    (commit_uow emptyStore (register_audit_listeners []) initialAuthCtx 0
      [⟨.insert, c5_entity, no_session_env⟩]).audit = [] := by
  refine ⟨rfl, ?_, rfl, rfl⟩
  intro h
  cases h

/-- C5 amended: if session resolution fails for an audited mutation, the
interceptor logs an error and returns without creating an audit entry; the
business mutation proceeds and commits un-audited.  It never fabricates a
detached, independently-committing transaction: nothing it does survives a
rollback of the unit of work. -/
theorem c5_skip_without_detached :
    ∀ (ctx : AuthCtx) (now : Nat) (e : Entity) (init : Store)
      (env : SessionEnv),
      env.owningSession = false → env.hasConnection = false →
      env.stateSessionId = false →
      (log_insert ctx now env e =
        .skipped "AUDIT_LOG_ERROR: No session for INSERT") ∧
      (log_update ctx now env e =
        .skipped "AUDIT_LOG_ERROR: No session for UPDATE") ∧
      (log_delete ctx now env e =
        .skipped "AUDIT_LOG_ERROR: No session or connection for DELETE") ∧
      (∀ a, (commit_uow init (register_audit_listeners []) ctx now
          [⟨a, e, env⟩]).audit = init.audit) ∧
      (∀ a, (commit_uow init (register_audit_listeners []) ctx now
          [⟨a, e, env⟩]).business = init.business ++ business_effect ⟨a, e, env⟩) ∧
      (∀ (regs : List Registration) (muts : List Mutation),
        rollback_uow init regs ctx now muts = init) := by
  intro ctx now e init env h1 h2 h3
  have hn := get_session_none env h1 h2 h3
  have hins : log_insert ctx now env e =
      .skipped "AUDIT_LOG_ERROR: No session for INSERT" := by
    simp [log_insert, hn]
  have hupd : log_update ctx now env e =
      .skipped "AUDIT_LOG_ERROR: No session for UPDATE" := by
    simp [log_update, hn]
  have hdel : log_delete ctx now env e =
      .skipped "AUDIT_LOG_ERROR: No session or connection for DELETE" := by
    simp [log_delete, hn, h2]
  have haudit : ∀ a : DmlAction,
      (flush_outcomes (register_audit_listeners []) ctx now
        ⟨a, e, env⟩).filterMap enlisted_same_tx = [] := by
    intro a
    rw [List.filterMap_eq_nil_iff]
    intro o ho
    unfold flush_outcomes at ho
    have he := List.eq_of_mem_replicate ho
    subst he
    cases a with
    | insert => simp [listener_for, hins, enlisted_same_tx]
    | update => simp [listener_for, hupd, enlisted_same_tx]
    | delete => simp [listener_for, hdel, enlisted_same_tx]
  refine ⟨hins, hupd, hdel, ?_, ?_, ?_⟩
  · intro a
    simp [commit_uow, haudit a]
  · intro a
    simp [commit_uow]
  · intro regs muts
    exact rollback_uow_eq_init init regs ctx now muts

/-- C5 amended witness: the concrete no-session INSERT is skipped, its
commit leaves the audit store untouched while recording the business row,
and its rollback restores the initial store. -/
theorem c5_skip_without_detached_witness :
    log_insert initialAuthCtx 0 no_session_env c5_entity =
      .skipped "AUDIT_LOG_ERROR: No session for INSERT" ∧
    (commit_uow emptyStore (register_audit_listeners []) initialAuthCtx 0
      [⟨.insert, c5_entity, no_session_env⟩]).audit = emptyStore.audit ∧
    rollback_uow emptyStore (register_audit_listeners []) initialAuthCtx 0
      [⟨.insert, c5_entity, no_session_env⟩] = emptyStore := by
  have h := c5_skip_without_detached initialAuthCtx 0 c5_entity emptyStore
    no_session_env rfl rfl rfl
  exact ⟨h.1, h.2.2.2.1 .insert, h.2.2.2.2.2 (register_audit_listeners [])
    [⟨.insert, c5_entity, no_session_env⟩]⟩

/-- C3 counterexample: after calling register_audit_listeners twice, a
single INSERT of an audited entity commits two identical AuditLog rows, not
one — registration is not idempotent. -/
theorem c3_double_registration_counterexample :
    (commit_uow emptyStore
        (register_audit_listeners (register_audit_listeners []))
        initialAuthCtx 0 [⟨.insert, c3_entity, owning_env⟩]).audit =
      [c3_entry, c3_entry] ∧
    (commit_uow emptyStore
        (register_audit_listeners (register_audit_listeners []))
        initialAuthCtx 0 [⟨.insert, c3_entity, owning_env⟩]).audit.length ≠ 1 := by
  have h : (commit_uow emptyStore
      (register_audit_listeners (register_audit_listeners []))
      initialAuthCtx 0 [⟨.insert, c3_entity, owning_env⟩]).audit =
      [c3_entry, c3_entry] := rfl
  exact ⟨h, by rw [h]; decide⟩

/-- C3 amended: register_audit_listeners appends its listeners on every
call (SQLAlchemy's event.listen does not deduplicate), so calling it twice
followed by a single mutation of an audited entity yields exactly two
identical AuditLog rows for that mutation. -/
theorem c3_double_registration_two_entries :
    ∀ (init : Store) (ctx : AuthCtx) (now : Nat) (mu : Mutation) (rid : Int),
      mu.target.model ∈ models_to_audit → mu.env.owningSession = true →
      mu.target.id = some rid →
      (mu.action = .update →
        ∃ a ∈ mu.target.fields, (get_history a).has_changes = true) →
      ∃ entry,
        (commit_uow init
            (register_audit_listeners (register_audit_listeners []))
            ctx now [mu]).audit = init.audit ++ [entry, entry] ∧
        entry.record_id = rid ∧ entry.action = action_label mu.action ∧
        entry.table_name = tablename mu.target.model := by
  intro init ctx now mu rid hm ho hid hupd
  have hisEmpty : mu.action = .update →
      (update_changes mu.target.fields).isEmpty = false := by
    intro ha
    rcases hupd ha with ⟨a, ha2, hch⟩
    rcases (get_history_has_changes a).mp hch with ⟨hass, hoid⟩
    have hmem := (mem_update_changes mu.target.fields a.key _ _).mpr
      ⟨a, ha2, rfl, hass, hoid, rfl, rfl⟩
    cases hcase : update_changes mu.target.fields with
    | nil => rw [hcase] at hmem; simp at hmem
    | cons x xs => rfl
  obtain ⟨entry, hlog, h1, h2, h3, _⟩ := listener_owning_logged mu.action ctx
    now mu.env mu.target rid ho hid hisEmpty
  refine ⟨entry, ?_, h1, h2, h3⟩
  have hf : flush_outcomes
      (register_audit_listeners (register_audit_listeners [])) ctx now mu =
      [.logged .owning false entry, .logged .owning false entry] := by
    unfold flush_outcomes
    rw [fire_count_twice mu.target.model hm mu.action, hlog]
    rfl
  simp only [commit_uow]
  rw [List.flatMap_cons, List.flatMap_nil, List.append_nil, hf]
  simp [enlisted_same_tx]

/-- C3 amended witness: the concrete doubly-registered INSERT commits
exactly the two identical rows. -/
theorem c3_double_registration_two_entries_witness :
    (commit_uow emptyStore
        (register_audit_listeners (register_audit_listeners []))
        initialAuthCtx 0 [⟨.insert, c3_entity, owning_env⟩]).audit =
      emptyStore.audit ++ [c3_entry, c3_entry] ∧
    c3_entry.record_id = 5 ∧ c3_entry.action = action_label .insert ∧
    c3_entry.table_name = tablename ModelClass.User := by
  obtain ⟨entry, he, h1, h2, h3⟩ := c3_double_registration_two_entries
    emptyStore initialAuthCtx 0 ⟨.insert, c3_entity, owning_env⟩ 5
    (by decide) rfl rfl (fun hcontra => by cases hcontra)
  have hlist : emptyStore.audit ++ [entry, entry] =
      emptyStore.audit ++ [c3_entry, c3_entry] := by
    rw [← he]
    rfl
  have hent : entry = c3_entry := by simpa using hlist
  subst hent
  exact ⟨he, h1, h2, h3⟩

/-- C10: only the four allow-listed models — User, Asset, Strategy, Trade —
are ever registered with the audit listeners, however many times
registration runs; AuditLog itself is not on the allow-list, so persisting
an audit row never fires a listener (no audit recursion), and flushing a
mutation of any unlisted model produces no listener outcome and adds no
AuditLog row on commit. -/
theorem c10_allow_list :
    ∀ (k : Nat) (ctx : AuthCtx) (now : Nat) (mu : Mutation),
      ModelClass.AuditLog ∉ models_to_audit ∧
      (∀ r ∈ registered_after k, r.model ∈ models_to_audit) ∧
      (mu.target.model ∉ models_to_audit →
        flush_outcomes (registered_after k) ctx now mu = [] ∧
        ∀ init, commit_uow init (registered_after k) ctx now [mu] =
          { business := init.business ++ business_effect mu,
            audit := init.audit }) ∧
      (mu.target.model = .AuditLog →
        flush_outcomes (registered_after k) ctx now mu = []) := by
  intro k ctx now mu
  have hflush : mu.target.model ∉ models_to_audit →
      flush_outcomes (registered_after k) ctx now mu = [] := by
    intro hm
    unfold flush_outcomes
    rw [fire_count_zero k mu.target.model hm (event_of mu.action)]
    rfl
  refine ⟨by decide, registered_after_models k, ?_, ?_⟩
  · intro hm
    refine ⟨hflush hm, ?_⟩
    intro init
    simp only [commit_uow, List.flatMap_cons, List.flatMap_nil,
      List.append_nil]
    rw [hflush hm]
    simp
  · intro hm
    apply hflush
    rw [hm]
    decide

/-- C10 witness: after two registration passes, flushing an INSERT of an
AuditLog row itself fires no listener, and AuditLog is off the allow-list. -/
theorem c10_allow_list_witness :
    ModelClass.AuditLog ∉ models_to_audit ∧
    flush_outcomes (registered_after 2) initialAuthCtx 0
      ⟨.insert, ⟨.AuditLog, some 1, []⟩, owning_env⟩ = [] := by
  have h := c10_allow_list 2 initialAuthCtx 0
    ⟨.insert, ⟨.AuditLog, some 1, []⟩, owning_env⟩
  exact ⟨h.1, h.2.2.2 rfl⟩

/-- C1: for every mutation of an audited entity flushed in its owning
session with a populated record id (for UPDATE, with a non-empty history
diff — the condition under which SQLAlchemy emits the UPDATE and fires the
listener at all), the audit row is enlisted into the same transaction:
after commit an AuditLog row with matching record_id, action and table_name
exists, and rollback of the unit of work restores the initial store exactly
— business row and audit row are committed or discarded together. -/
theorem c1_atomicity :
    ∀ (init : Store) (ctx : AuthCtx) (now : Nat) (muts : List Mutation)
      (mu : Mutation) (rid : Int),
      mu ∈ muts →
      mu.target.model ∈ models_to_audit →
      mu.env.owningSession = true →
      mu.target.id = some rid →
      (mu.action = .update →
        ∃ a ∈ mu.target.fields, (get_history a).has_changes = true) →
      (∃ e ∈ (commit_uow init (register_audit_listeners []) ctx now
          muts).audit,
        e.record_id = rid ∧ e.action = action_label mu.action ∧
        e.table_name = tablename mu.target.model) ∧
      rollback_uow init (register_audit_listeners []) ctx now muts = init := by
  intro init ctx now muts mu rid hmem hm ho hid hupd
  have hisEmpty : mu.action = .update →
      (update_changes mu.target.fields).isEmpty = false := by
    intro ha
    rcases hupd ha with ⟨a, ha2, hch⟩
    rcases (get_history_has_changes a).mp hch with ⟨hass, hoid⟩
    have hmem2 := (mem_update_changes mu.target.fields a.key _ _).mpr
      ⟨a, ha2, rfl, hass, hoid, rfl, rfl⟩
    cases hcase : update_changes mu.target.fields with
    | nil => rw [hcase] at hmem2; simp at hmem2
    | cons x xs => rfl
  obtain ⟨entry, hlog, h1, h2, h3, _⟩ := listener_owning_logged mu.action ctx
    now mu.env mu.target rid ho hid hisEmpty
  constructor
  · refine ⟨entry, ?_, h1, h2, h3⟩
    show entry ∈ init.audit ++ muts.flatMap fun m =>
      (flush_outcomes (register_audit_listeners []) ctx now m).filterMap
        enlisted_same_tx
    apply List.mem_append.mpr
    right
    apply List.mem_flatMap.mpr
    refine ⟨mu, hmem, ?_⟩
    unfold flush_outcomes
    rw [fire_count_once mu.target.model hm mu.action, hlog]
    simp [enlisted_same_tx]
  · exact rollback_uow_eq_init init (register_audit_listeners []) ctx now muts

/-- C1 witness: the concrete INSERT commits exactly its audit row, which
matches on record id, action and table name, and rolling back commits
nothing. -/
theorem c1_atomicity_witness :
    c3_entry ∈ (commit_uow emptyStore (register_audit_listeners [])
      initialAuthCtx 0 [⟨.insert, c3_entity, owning_env⟩]).audit ∧
    c3_entry.record_id = 5 ∧ c3_entry.action = action_label .insert ∧
    c3_entry.table_name = tablename ModelClass.User ∧
    rollback_uow emptyStore (register_audit_listeners []) initialAuthCtx 0
      [⟨.insert, c3_entity, owning_env⟩] = emptyStore := by
  have h := c1_atomicity emptyStore initialAuthCtx 0
    [⟨.insert, c3_entity, owning_env⟩] ⟨.insert, c3_entity, owning_env⟩ 5
    (by simp) (by decide) rfl rfl (fun hc => by cases hc)
  exact ⟨by decide, rfl, rfl, rfl, h.2⟩

/-- Folding a state transformer that fixes a projection fixes it overall. -/
theorem foldl_proj {α β γ : Type _} (proj : β → γ) (f : β → α → β)
    (h : ∀ b a, proj (f b a) = proj b) :
    ∀ (l : List α) (b : β), proj (l.foldl f b) = proj b := by
  intro l
  induction l with
  | nil => intro b; rfl
  | cons x xs ih => intro b; rw [List.foldl_cons, ih, h]

/-- find? commutes with mapping a function that does not change the
predicate. -/
theorem find?_map_id_pred {α : Type _} (f : α → α) (p : α → Bool)
    (hp : ∀ a, p (f a) = p a) :
    ∀ l : List α, (l.map f).find? p = (l.find? p).map f := by
  intro l
  induction l with
  | nil => rfl
  | cons x xs ih =>
    rw [List.map_cons]
    cases hx : p x with
    | true =>
      rw [List.find?_cons_of_pos _ (by rw [hp]; exact hx),
        List.find?_cons_of_pos _ hx]
      rfl
    | false =>
      rw [List.find?_cons_of_neg _ (by rw [hp]; simp [hx]),
        List.find?_cons_of_neg _ (by simp [hx]), ih]

/-- soft_delete on a Trade touches only the trades table. -/
theorem soft_delete_trade_users (now tid : Nat) (db : OrmDB) :
    (soft_delete_trade now tid db).users = db.users := by
  unfold soft_delete_trade
  split
  · rfl
  · split
    · rfl
    · rfl

/-- soft_delete on a Trade leaves strategies unchanged. -/
theorem soft_delete_trade_strategies (now tid : Nat) (db : OrmDB) :
    (soft_delete_trade now tid db).strategies = db.strategies := by
  unfold soft_delete_trade
  split
  · rfl
  · split
    · rfl
    · rfl

/-- soft_delete on a Trade leaves orders unchanged. -/
theorem soft_delete_trade_orders (now tid : Nat) (db : OrmDB) :
    (soft_delete_trade now tid db).orders = db.orders := by
  unfold soft_delete_trade
  split
  · rfl
  · split
    · rfl
    · rfl

/-- soft_delete on an Order leaves users unchanged. -/
theorem soft_delete_order_users (now oid : Nat) (db : OrmDB) :
    (soft_delete_order now oid db).users = db.users := by
  unfold soft_delete_order
  split
  · rfl
  · split
    · rfl
    · exact foldl_proj OrmDB.users _
        (fun (b : OrmDB) (a : TradeRow) => soft_delete_trade_users now a.id b) _ _

/-- soft_delete on an Order leaves strategies unchanged. -/
theorem soft_delete_order_strategies (now oid : Nat) (db : OrmDB) :
    (soft_delete_order now oid db).strategies = db.strategies := by
  unfold soft_delete_order
  split
  · rfl
  · split
    · rfl
    · exact foldl_proj OrmDB.strategies _
        (fun (b : OrmDB) (a : TradeRow) => soft_delete_trade_strategies now a.id b) _ _

/-- soft_delete on a Strategy leaves users unchanged. -/
theorem soft_delete_strategy_users (now sid : Nat) (db : OrmDB) :
    (soft_delete_strategy now sid db).users = db.users := by
  unfold soft_delete_strategy
  split
  · rfl
  · split
    · rfl
    · exact foldl_proj OrmDB.users _
        (fun (b : OrmDB) (a : OrderRow) => soft_delete_order_users now a.id b) _ _

/-- soft_delete on a live Trade marks exactly the trade rows with its id. -/
theorem soft_delete_trade_trades (now tid : Nat) (db : OrmDB) (t : TradeRow)
    (hf : db.trades.find? (fun r => r.id == tid) = some t)
    (ht : t.sd.is_deleted = false) :
    (soft_delete_trade now tid db).trades =
      db.trades.map fun (r : TradeRow) =>
        if r.id == tid then { r with sd := mark_deleted now } else r := by
  unfold soft_delete_trade
  split
  · rename_i heq
    simp [heq] at hf
  · rename_i t' heq
    obtain rfl : t' = t := by rw [heq] at hf; exact Option.some.inj hf
    rw [if_neg (by simp [ht])]

/-- soft_delete on a live Order marks exactly the order rows with its id. -/
theorem soft_delete_order_orders (now oid : Nat) (db : OrmDB) (o : OrderRow)
    (hf : db.orders.find? (fun r => r.id == oid) = some o)
    (ho : o.sd.is_deleted = false) :
    (soft_delete_order now oid db).orders =
      db.orders.map fun (r : OrderRow) =>
        if r.id == oid then { r with sd := mark_deleted now } else r := by
  unfold soft_delete_order
  split
  · rename_i heq
    simp [heq] at hf
  · rename_i o' heq
    obtain rfl : o' = o := by rw [heq] at hf; exact Option.some.inj hf
    rw [if_neg (by simp [ho])]
    exact foldl_proj OrmDB.orders _
      (fun (b : OrmDB) (a : TradeRow) => soft_delete_trade_orders now a.id b) _ _

/-- soft_delete on a live Strategy marks exactly the strategy rows with its
id. -/
theorem soft_delete_strategy_strategies (now sid : Nat) (db : OrmDB)
    (s : StrategyRow)
    (hf : db.strategies.find? (fun r => r.id == sid) = some s)
    (hs : s.sd.is_deleted = false) :
    (soft_delete_strategy now sid db).strategies =
      db.strategies.map fun (r : StrategyRow) =>
        if r.id == sid then { r with sd := mark_deleted now } else r := by
  unfold soft_delete_strategy
  split
  · rename_i heq
    simp [heq] at hf
  · rename_i s' heq
    obtain rfl : s' = s := by rw [heq] at hf; exact Option.some.inj hf
    rw [if_neg (by simp [hs])]
    exact foldl_proj OrmDB.strategies _
      (fun (b : OrmDB) (a : OrderRow) => soft_delete_order_strategies now a.id b) _ _

/-- soft_delete on a live User marks exactly the user rows with its id. -/
theorem soft_delete_user_users (now uid : Nat) (db : OrmDB) (u : UserRow)
    (hf : db.users.find? (fun r => r.id == uid) = some u)
    (hu : u.sd.is_deleted = false) :
    (soft_delete_user now uid db).users =
      db.users.map fun (r : UserRow) =>
        if r.id == uid then { r with sd := mark_deleted now } else r := by
  unfold soft_delete_user
  split
  · rename_i heq
    simp [heq] at hf
  · rename_i u' heq
    obtain rfl : u' = u := by rw [heq] at hf; exact Option.some.inj hf
    rw [if_neg (by simp [hu])]
    exact (foldl_proj OrmDB.users _
      (fun (b : OrmDB) (a : OrderRow) => soft_delete_order_users now a.id b) _ _).trans
      (foldl_proj OrmDB.users _
        (fun (b : OrmDB) (a : StrategyRow) => soft_delete_strategy_users now a.id b) _ _)

/-- soft_delete on a Trade whose row is absent or already deleted is a
no-op: the early `if self.is_deleted: return` guard fires. -/
theorem soft_delete_trade_noop (now tid : Nat) (db : OrmDB)
    (h : ∀ t, db.trades.find? (fun r => r.id == tid) = some t →
      t.sd.is_deleted = true) :
    soft_delete_trade now tid db = db := by
  unfold soft_delete_trade
  split
  · rfl
  · rename_i t heq
    rw [if_pos (h t heq)]

/-- soft_delete on an absent or already deleted Order is a no-op. -/
theorem soft_delete_order_noop (now oid : Nat) (db : OrmDB)
    (h : ∀ o, db.orders.find? (fun r => r.id == oid) = some o →
      o.sd.is_deleted = true) :
    soft_delete_order now oid db = db := by
  unfold soft_delete_order
  split
  · rfl
  · rename_i o heq
    rw [if_pos (h o heq)]

/-- soft_delete on an absent or already deleted Strategy is a no-op. -/
theorem soft_delete_strategy_noop (now sid : Nat) (db : OrmDB)
    (h : ∀ s, db.strategies.find? (fun r => r.id == sid) = some s →
      s.sd.is_deleted = true) :
    soft_delete_strategy now sid db = db := by
  unfold soft_delete_strategy
  split
  · rfl
  · rename_i s heq
    rw [if_pos (h s heq)]

/-- soft_delete on an absent or already deleted User is a no-op. -/
theorem soft_delete_user_noop (now uid : Nat) (db : OrmDB)
    (h : ∀ u, db.users.find? (fun r => r.id == uid) = some u →
      u.sd.is_deleted = true) :
    soft_delete_user now uid db = db := by
  unfold soft_delete_user
  split
  · rfl
  · rename_i u heq
    rw [if_pos (h u heq)]

/-- A second soft_delete of the same Trade is a no-op. -/
theorem soft_delete_trade_idem (now1 now2 tid : Nat) (db : OrmDB) :
    soft_delete_trade now2 tid (soft_delete_trade now1 tid db) =
      soft_delete_trade now1 tid db := by
  cases hf : db.trades.find? (fun r => r.id == tid) with
  | none =>
    have hno : ∀ t, db.trades.find? (fun r => r.id == tid) = some t →
        t.sd.is_deleted = true := by
      intro t ht
      rw [hf] at ht
      simp at ht
    rw [soft_delete_trade_noop now1 tid db hno]
    exact soft_delete_trade_noop now2 tid db hno
  | some t =>
    by_cases ht : t.sd.is_deleted = true
    · have hno : ∀ t', db.trades.find? (fun r => r.id == tid) = some t' →
          t'.sd.is_deleted = true := by
        intro t' ht'
        rw [hf] at ht'
        obtain rfl := Option.some.inj ht'
        exact ht
      rw [soft_delete_trade_noop now1 tid db hno]
      exact soft_delete_trade_noop now2 tid db hno
    · have ht' : t.sd.is_deleted = false := by
        revert ht; cases t.sd.is_deleted <;> simp
      have htr := soft_delete_trade_trades now1 tid db t hf ht'
      set db1 := soft_delete_trade now1 tid db with hdb1
      have hfind : db1.trades.find? (fun r => r.id == tid) =
          some { t with sd := mark_deleted now1 } := by
        rw [htr, find?_map_id_pred _ _
          (fun a => by by_cases ha : (a.id == tid) = true <;> simp [ha]), hf]
        have hpt : (t.id == tid) = true := by simpa using List.find?_some hf
        simp [hpt]
        intro hne
        exact absurd (by simpa using hpt) hne
      apply soft_delete_trade_noop
      intro t' ht2
      rw [hfind] at ht2
      obtain rfl := Option.some.inj ht2
      rfl

/-- A second soft_delete of the same Order is a no-op. -/
theorem soft_delete_order_idem (now1 now2 oid : Nat) (db : OrmDB) :
    soft_delete_order now2 oid (soft_delete_order now1 oid db) =
      soft_delete_order now1 oid db := by
  cases hf : db.orders.find? (fun r => r.id == oid) with
  | none =>
    have hno : ∀ o, db.orders.find? (fun r => r.id == oid) = some o →
        o.sd.is_deleted = true := by
      intro o ho
      rw [hf] at ho
      simp at ho
    rw [soft_delete_order_noop now1 oid db hno]
    exact soft_delete_order_noop now2 oid db hno
  | some o =>
    by_cases ho : o.sd.is_deleted = true
    · have hno : ∀ o', db.orders.find? (fun r => r.id == oid) = some o' →
          o'.sd.is_deleted = true := by
        intro o' ho'
        rw [hf] at ho'
        obtain rfl := Option.some.inj ho'
        exact ho
      rw [soft_delete_order_noop now1 oid db hno]
      exact soft_delete_order_noop now2 oid db hno
    · have ho' : o.sd.is_deleted = false := by
        revert ho; cases o.sd.is_deleted <;> simp
      have hor := soft_delete_order_orders now1 oid db o hf ho'
      set db1 := soft_delete_order now1 oid db with hdb1
      have hfind : db1.orders.find? (fun r => r.id == oid) =
          some { o with sd := mark_deleted now1 } := by
        rw [hor, find?_map_id_pred _ _
          (fun a => by by_cases ha : (a.id == oid) = true <;> simp [ha]), hf]
        have hpt : (o.id == oid) = true := by simpa using List.find?_some hf
        simp [hpt]
        intro hne
        exact absurd (by simpa using hpt) hne
      apply soft_delete_order_noop
      intro o' ho2
      rw [hfind] at ho2
      obtain rfl := Option.some.inj ho2
      rfl

/-- A second soft_delete of the same Strategy is a no-op. -/
theorem soft_delete_strategy_idem (now1 now2 sid : Nat) (db : OrmDB) :
    soft_delete_strategy now2 sid (soft_delete_strategy now1 sid db) =
      soft_delete_strategy now1 sid db := by
  cases hf : db.strategies.find? (fun r => r.id == sid) with
  | none =>
    have hno : ∀ s, db.strategies.find? (fun r => r.id == sid) = some s →
        s.sd.is_deleted = true := by
      intro s hs
      rw [hf] at hs
      simp at hs
    rw [soft_delete_strategy_noop now1 sid db hno]
    exact soft_delete_strategy_noop now2 sid db hno
  | some s =>
    by_cases hs : s.sd.is_deleted = true
    · have hno : ∀ s', db.strategies.find? (fun r => r.id == sid) = some s' →
          s'.sd.is_deleted = true := by
        intro s' hs'
        rw [hf] at hs'
        obtain rfl := Option.some.inj hs'
        exact hs
      rw [soft_delete_strategy_noop now1 sid db hno]
      exact soft_delete_strategy_noop now2 sid db hno
    · have hs' : s.sd.is_deleted = false := by
        revert hs; cases s.sd.is_deleted <;> simp
      have hst := soft_delete_strategy_strategies now1 sid db s hf hs'
      set db1 := soft_delete_strategy now1 sid db with hdb1
      have hfind : db1.strategies.find? (fun r => r.id == sid) =
          some { s with sd := mark_deleted now1 } := by
        rw [hst, find?_map_id_pred _ _
          (fun a => by by_cases ha : (a.id == sid) = true <;> simp [ha]), hf]
        have hpt : (s.id == sid) = true := by simpa using List.find?_some hf
        simp [hpt]
        intro hne
        exact absurd (by simpa using hpt) hne
      apply soft_delete_strategy_noop
      intro s' hs2
      rw [hfind] at hs2
      obtain rfl := Option.some.inj hs2
      rfl

/-- A second soft_delete of the same User is a no-op. -/
theorem soft_delete_user_idem (now1 now2 uid : Nat) (db : OrmDB) :
    soft_delete_user now2 uid (soft_delete_user now1 uid db) =
      soft_delete_user now1 uid db := by
  cases hf : db.users.find? (fun r => r.id == uid) with
  | none =>
    have hno : ∀ u, db.users.find? (fun r => r.id == uid) = some u →
        u.sd.is_deleted = true := by
      intro u hu
      rw [hf] at hu
      simp at hu
    rw [soft_delete_user_noop now1 uid db hno]
    exact soft_delete_user_noop now2 uid db hno
  | some u =>
    by_cases hu : u.sd.is_deleted = true
    · have hno : ∀ u', db.users.find? (fun r => r.id == uid) = some u' →
          u'.sd.is_deleted = true := by
        intro u' hu'
        rw [hf] at hu'
        obtain rfl := Option.some.inj hu'
        exact hu
      rw [soft_delete_user_noop now1 uid db hno]
      exact soft_delete_user_noop now2 uid db hno
    · have hu' : u.sd.is_deleted = false := by
        revert hu; cases u.sd.is_deleted <;> simp
      have hus := soft_delete_user_users now1 uid db u hf hu'
      set db1 := soft_delete_user now1 uid db with hdb1
      have hfind : db1.users.find? (fun r => r.id == uid) =
          some { u with sd := mark_deleted now1 } := by
        rw [hus, find?_map_id_pred _ _
          (fun a => by by_cases ha : (a.id == uid) = true <;> simp [ha]), hf]
        have hpt : (u.id == uid) = true := by simpa using List.find?_some hf
        simp [hpt]
        intro hne
        exact absurd (by simpa using hpt) hne
      apply soft_delete_user_noop
      intro u' hu2
      rw [hfind] at hu2
      obtain rfl := Option.some.inj hu2
      rfl

/-- C8: soft_delete is idempotent for every soft-delete-capable entity kind
carrying the cascade (User, Strategy, Order, Trade): a second soft_delete of
an already soft-deleted entity returns with the whole state — in particular
is_deleted and the deleted_at stamp set by the first call — unchanged, for
any database and any pair of call times. -/
theorem c8_soft_delete_idempotent :
    ∀ (db : OrmDB) (now1 now2 i : Nat),
      soft_delete_user now2 i (soft_delete_user now1 i db) =
        soft_delete_user now1 i db ∧
      soft_delete_strategy now2 i (soft_delete_strategy now1 i db) =
        soft_delete_strategy now1 i db ∧
      soft_delete_order now2 i (soft_delete_order now1 i db) =
        soft_delete_order now1 i db ∧
      soft_delete_trade now2 i (soft_delete_trade now1 i db) =
        soft_delete_trade now1 i db :=
  fun db now1 now2 i =>
    ⟨soft_delete_user_idem now1 now2 i db,
     soft_delete_strategy_idem now1 now2 i db,
     soft_delete_order_idem now1 now2 i db,
     soft_delete_trade_idem now1 now2 i db⟩

/-- C7: soft-deleting a live User that owns a live Strategy that owns a live
Order that owns a live Trade marks all four rows is_deleted = true with a
non-null deleted_at before soft_delete returns — the cascade runs
synchronously and transitively along the ownership edges User to Strategy to
Order to Trade within the one unit of work. -/
theorem c7_cascade_soft_delete :
    ∀ (now : Nat) (u : UserRow) (s : StrategyRow) (o : OrderRow) (t : TradeRow)
      (sig : List SignalRow) (bt : List BacktestResultRow)
      (bl : List BehaviorLogRow) (an : List AnalyticsRow),
      s.user_id = u.id → o.strategy_id = some s.id → t.order_id = some o.id →
      u.sd.is_deleted = false → s.sd.is_deleted = false →
      o.sd.is_deleted = false → t.sd.is_deleted = false →
      (soft_delete_user now u.id ⟨[u], [s], [o], [t], sig, bt, bl, an⟩).users =
        [{ u with sd := mark_deleted now }] ∧
      (soft_delete_user now u.id
        ⟨[u], [s], [o], [t], sig, bt, bl, an⟩).strategies =
        [{ s with sd := mark_deleted now }] ∧
      (soft_delete_user now u.id ⟨[u], [s], [o], [t], sig, bt, bl, an⟩).orders =
        [{ o with sd := mark_deleted now }] ∧
      (soft_delete_user now u.id ⟨[u], [s], [o], [t], sig, bt, bl, an⟩).trades =
        [{ t with sd := mark_deleted now }] ∧
      (mark_deleted now).is_deleted = true ∧
      (mark_deleted now).deleted_at = some now := by
  intro now u s o t sig bt bl an hs1 ho1 ht1 hu hs ho ht
  by_cases houser : o.user_id = some u.id <;>
    refine ⟨?_, ?_, ?_, ?_, rfl, rfl⟩ <;>
      simp [soft_delete_user, soft_delete_strategy, soft_delete_order,
        soft_delete_trade, mark_deleted, hs1, ho1, ht1, hu, hs, ho, ht, houser]

/-- C7 witness: a concrete user 1 owning strategy 2 owning order 3 owning
trade 4, all live, all four marked deleted with deleted_at = 9 by one
soft_delete of the user. -/
theorem c7_cascade_soft_delete_witness :
    (soft_delete_user 9 1 ⟨[⟨1, ⟨false, none⟩⟩], [⟨2, 1, ⟨false, none⟩⟩],
        [⟨3, some 1, some 2, ⟨false, none⟩⟩], [⟨4, 1, some 3, ⟨false, none⟩⟩],
        [], [], [], []⟩).users = [⟨1, ⟨true, some 9⟩⟩] ∧
    (soft_delete_user 9 1 ⟨[⟨1, ⟨false, none⟩⟩], [⟨2, 1, ⟨false, none⟩⟩],
        [⟨3, some 1, some 2, ⟨false, none⟩⟩], [⟨4, 1, some 3, ⟨false, none⟩⟩],
        [], [], [], []⟩).strategies = [⟨2, 1, ⟨true, some 9⟩⟩] ∧
    (soft_delete_user 9 1 ⟨[⟨1, ⟨false, none⟩⟩], [⟨2, 1, ⟨false, none⟩⟩],
        [⟨3, some 1, some 2, ⟨false, none⟩⟩], [⟨4, 1, some 3, ⟨false, none⟩⟩],
        [], [], [], []⟩).orders = [⟨3, some 1, some 2, ⟨true, some 9⟩⟩] ∧
    (soft_delete_user 9 1 ⟨[⟨1, ⟨false, none⟩⟩], [⟨2, 1, ⟨false, none⟩⟩],
        [⟨3, some 1, some 2, ⟨false, none⟩⟩], [⟨4, 1, some 3, ⟨false, none⟩⟩],
        [], [], [], []⟩).trades = [⟨4, 1, some 3, ⟨true, some 9⟩⟩] := by
  have h := c7_cascade_soft_delete 9 ⟨1, ⟨false, none⟩⟩ ⟨2, 1, ⟨false, none⟩⟩
    ⟨3, some 1, some 2, ⟨false, none⟩⟩ ⟨4, 1, some 3, ⟨false, none⟩⟩ [] [] [] []
    rfl rfl rfl rfl rfl rfl rfl
  exact ⟨h.1, h.2.1, h.2.2.1, h.2.2.2.1⟩
